import Mathlib

/-!
Verification development for the hot_news_bot repository.

The Python sources `rss_parser.py`, `events.py` and `publisher.py` are shallowly
embedded below.  Strings are handled through their character lists, timestamps
are integers (seconds), and the helper modules that are not part of the three
source files (`database.py`, `utils.py`, `config.py`) are modelled from the
specification where a claim depends on them.  Python truthiness of optional
strings (None and "" are falsy) is made explicit via `truthyOpt`.
-/

set_option autoImplicit false

namespace HotNewsBot

/-! ### Generic string helpers (character-list based, kernel-evaluable) -/

/-- Boolean "is `n` a leading segment of `h`" on character lists
(Python `str.startswith`). -/
def leadsList : List Char → List Char → Bool
  | [], _ => true
  | _ :: _, [] => false
  | a :: as, b :: bs => a == b && leadsList as bs

/-- Boolean substring test on character lists: does `n` occur contiguously
inside `h`?  (Python `n in h` for strings.) -/
def isSubstrList (n : List Char) : List Char → Bool
  | [] => n.isEmpty
  | c :: t => leadsList n (c :: t) || isSubstrList n t

/-- Python `str.lower`, modelled on the ASCII range (the only range exercised
by the specification's examples). -/
def lowerStr (s : String) : String := ⟨s.data.map Char.toLower⟩

/-- Python `needle in hay` for strings. -/
def containsSub (hay needle : String) : Bool := isSubstrList needle.data hay.data

/-- Python `s.startswith p`. -/
def startsWithStr (s p : String) : Bool := leadsList p.data s.data

/-- Python `s.split(',')` on character lists: always returns at least one
(possibly empty) group, groups separated at every comma. -/
def splitComma : List Char → List (List Char)
  | [] => [[]]
  | c :: t =>
    match splitComma t with
    | [] => [[c]]
    | g :: gs => if c = ',' then [] :: g :: gs else (c :: g) :: gs

/-- Python `s.split(',')` on strings. -/
def splitCommaStr (s : String) : List String := (splitComma s.data).map (fun l => ⟨l⟩)

/-- Python truthiness of an optional string: `None` and `""` are falsy. -/
def truthyOpt : Option String → Bool
  | none => false
  | some s => s ≠ ""

/-! ### Text normalizer (`utils.py`, file absent from src)

Modelled from the spec: `normalize(raw) -> string` "removes markup tags …
input may be empty; output is always a plain string (never fails)". -/

/-- Tag-stripping scanner: drops every `<...>` span.  The Boolean argument
records whether the scanner is currently inside a tag. -/
def stripTagsAux : List Char → Bool → List Char
  | [], _ => []
  | c :: t, true => if c = '>' then stripTagsAux t false else stripTagsAux t true
  | c :: t, false => if c = '<' then stripTagsAux t true else c :: stripTagsAux t false

/-- Modelled from the spec: `utils.clean_html` — the Text Normalizer, which
removes markup tags from raw text and never fails. -/
def clean_html (s : String) : String := ⟨stripTagsAux s.data false⟩

/-- Scanner removing `<img ...>` spans and keeping everything else.  The
Boolean argument is true while inside an image tag (dropping up to `>`). -/
def removeImgAux : Bool → List Char → List Char
  | _, [] => []
  | true, c :: t => if c = '>' then removeImgAux false t else removeImgAux true t
  | false, '<' :: 'i' :: 'm' :: 'g' :: rest => removeImgAux true rest
  | false, c :: t => c :: removeImgAux false t

/-- Modelled from the spec: `utils.remove_img_tags` — strips embedded
image-reference tags before further processing. -/
def remove_img_tags (s : String) : String := ⟨removeImgAux false s.data⟩

/-! ### Feed entries and articles (`rss_parser.py`) -/

/-- One `media_content` item of a feed entry: `media.get('type', '')` and
`media.get('url')` in the source, hence both fields optional. -/
structure MediaItem where
  mtype : Option String
  url : Option String
deriving DecidableEq

/-- One `media_thumbnail` item: only its `url` is consulted. -/
structure Thumb where
  url : Option String
deriving DecidableEq

/-- One `links` item: `link.get('type', '')` and `link.get('href')`. -/
structure LinkItem where
  ltype : Option String
  href : Option String
deriving DecidableEq

/-- A raw feed entry as consumed by `parse_entry`.  Attribute access on a
missing `title`/`link` raises in feedparser, so those are `Option`s whose
`none` case is the `malformed` (exception) path; `published_parsed` and
`updated_parsed` are modelled as optional integer timestamps. -/
structure Entry where
  eid : Option String
  title : Option String
  link : Option String
  summary : Option String
  published : Option Int
  updated : Option Int
  media_content : List MediaItem
  media_thumbnail : List Thumb
  links : List LinkItem
deriving DecidableEq

/-- The normalized Article produced by `parse_entry` (the returned dict). -/
structure Article where
  id : String
  title : String
  summary : String
  link : String
  pub_date : Int
  source : String
  image_url : Option String
deriving DecidableEq

/-- The required raw fields of an entry: `entry.link` and `entry.title` must
both be present, otherwise `parse_entry` takes its exception path. -/
def entry_wellformed (e : Entry) : Bool := e.link.isSome && e.title.isSome

/-- Rejection reasons of the Freshness & Duplicate Filter, as named by the
spec: `stale` (7-day check), `duplicate` (already published), `malformed`
(required field missing, the exception path of `parse_entry`). -/
inductive RejectReason where
  | stale
  | duplicate
  | malformed
deriving DecidableEq

deriving instance DecidableEq for Except

/-- Per-entry outcome of the filter in `fetch_feed`. -/
inductive Outcome where
  | admitted (a : Article)
  | rejected (r : RejectReason)
deriving DecidableEq

/-- Seven days in seconds (`timedelta(days=7)`). -/
def sevenDays : Int := 7 * 86400

/-- The publication timestamp derived by `parse_entry`:
`entry.get('published_parsed') or entry.get('updated_parsed')`, and
`datetime.now()` when both are absent. -/
def pub_date_of (now : Int) (e : Entry) : Int :=
  match e.published with
  | some t => t
  | none =>
    match e.updated with
    | some t => t
    | none => now

/-- Does `m.get('type','')` start with `image/`? -/
def isImageMedia (m : MediaItem) : Bool := startsWithStr (m.mtype.getD "") "image/"

/-- First `media_content` item whose type is an image MIME type (the first
`for media in media_contents` loop breaks on it). -/
def firstImageMedia : List MediaItem → Option MediaItem
  | [] => none
  | m :: t => if isImageMedia m then some m else firstImageMedia t

/-- Does `link.get('type','')` start with `image/`? -/
def isImageLink (l : LinkItem) : Bool := startsWithStr (l.ltype.getD "") "image/"

/-- First `links` item typed as an image (the `for link in entry.links` loop
breaks on it). -/
def firstImageLink : List LinkItem → Option LinkItem
  | [] => none
  | l :: t => if isImageLink l then some l else firstImageLink t

/-- The image-extraction block of `parse_entry` (rss_parser.py lines 82-98).
`image_url` starts as `None`; the media_content loop may set it; the
thumbnail step runs only when the current value is falsy (`not image_url`)
and takes `thumbnails[0].get('url')`; the links step likewise runs only on a
falsy current value and only reassigns when a matching link is found. -/
def extract_image (e : Entry) : Option String :=
  let i1 : Option String :=
    match firstImageMedia e.media_content with
    | some m => m.url
    | none => none
  let i2 : Option String :=
    if truthyOpt i1 then i1
    else
      match e.media_thumbnail with
      | [] => i1
      | t :: _ => t.url
  if truthyOpt i2 then i2
  else
    match firstImageLink e.links with
    | some l => l.href
    | none => i2

/-- Embedding of `parse_entry` with the spec's rejection reasons made explicit.  The source
returns `None` both on the exception path (missing `link`/`title`, reason
`malformed`) and on the 7-day check (reason `stale`); field derivation
(id, title, summary) happens before the staleness check, as in the source. -/
def parse_entry_r (now : Int) (feed_url : String) (e : Entry) : Except RejectReason Article :=
  match e.link, e.title with
  | some lnk, some ttl =>
    let article_id := e.eid.getD lnk
    let title := clean_html ttl
    let summary :=
      match e.summary with
      | some s => clean_html (remove_img_tags s)
      | none => ""
    let pd := pub_date_of now e
    if now - pd > sevenDays then Except.error RejectReason.stale
    else
      Except.ok
        { id := article_id, title := title, summary := summary, link := lnk,
          pub_date := pd, source := feed_url, image_url := extract_image e }
  | _, _ => Except.error RejectReason.malformed

/-- Embedding of `parse_entry` as the source has it: `None` on any rejection. -/
def parse_entry (now : Int) (feed_url : String) (e : Entry) : Option Article :=
  (parse_entry_r now feed_url e).toOption

/-- Modelled from the spec: `database.is_article_published` — the persistent
store's `isPublished(id) -> bool`, with the PublishedRecord table modelled as
the list of recorded article identifiers. -/
def is_article_published (pub : List String) (id : String) : Bool := decide (id ∈ pub)

/-- The per-entry decision of `fetch_feed`: a parsed article whose id is
already published is dropped (reason `duplicate`), otherwise admitted. -/
def process_entry (pub : List String) (now : Int) (feed_url : String) (e : Entry) : Outcome :=
  match parse_entry_r now feed_url e with
  | Except.error r => Outcome.rejected r
  | Except.ok a =>
    if is_article_published pub a.id then Outcome.rejected RejectReason.duplicate
    else Outcome.admitted a

/-- Embedding of `fetch_feed` (rss_parser.py lines 49-62): iterate over
`feed.entries[:ARTICLES_PER_FEED]`, keep each parsed article that is not
already published, in feed order.  `ARTICLES_PER_FEED` comes from the absent
`config.py` and is the parameter `n`. -/
def fetch_feed (pub : List String) (now : Int) (feed_url : String) (n : Nat)
    (entries : List Entry) : List Article :=
  (entries.take n).filterMap (fun e =>
    match parse_entry now feed_url e with
    | some a => if is_article_published pub a.id then none else some a
    | none => none)

/-! ### Event store and relevance matcher (`events.py`) -/

/-- A stored event row as returned by `database.get_today_events`: the tuple
`(id, name, date, keywords)` with the keyword list persisted as one
comma-joined string (the source does `event[3].split(',')`). -/
structure StoredEvent where
  id : Nat
  name : String
  date : Int
  keywords : String
deriving DecidableEq

/-- The dict built by `get_relevant_events` for a matching event. -/
structure RelEvent where
  id : Nat
  name : String
  date : Int
  keywords : List String
deriving DecidableEq

/-- The match test of `get_relevant_events`:
`any(keyword.lower() in article_content.lower() for keyword in event_keywords)`
where `event_keywords = event[3].split(',')`. -/
def event_matches (article_content : String) (ev : StoredEvent) : Bool :=
  (splitCommaStr ev.keywords).any (fun k => containsSub (lowerStr article_content) (lowerStr k))

/-- The result dict for one matching event. -/
def mkRelEvent (ev : StoredEvent) : RelEvent :=
  { id := ev.id, name := ev.name, date := ev.date, keywords := splitCommaStr ev.keywords }

/-- Embedding of `get_relevant_events` (events.py lines 69-86): loop over today's events in
store order, appending each matching event's dict.  The store query
`get_today_events()` is the parameter `today_events`. -/
def get_relevant_events (article_content : String) (today_events : List StoredEvent) :
    List RelEvent :=
  today_events.foldl
    (fun acc ev => if event_matches article_content ev then acc ++ [mkRelEvent ev] else acc)
    []

/-- A new event as produced by `fetch_upcoming_events`: display name, calendar
date and keyword list, before the store assigns an id. -/
structure NewEvent where
  name : String
  date : Int
  keywords : List String
deriving DecidableEq

/-- The event store: rows plus the next id the store will assign. -/
structure EventStore where
  events : List StoredEvent
  nextId : Nat
deriving DecidableEq

/-- Modelled from the spec: `database.clear_old_data(days)` — the store's
`purgeEventsOlderThan(days)`: "all Events older than a retention window
(30 days) are purged", age measured against the Event's calendar date. -/
def clear_old_data (today : Int) (days : Int) (s : EventStore) : EventStore :=
  { s with events := s.events.filter (fun ev => decide (today - ev.date ≤ days)) }

/-- Modelled from the spec: `database.add_event(name, date, keywords)` — the
store's `insertEvent`: appends a row with a fresh store-assigned id, the
keyword list persisted as a comma-joined string. -/
def add_event (s : EventStore) (name : String) (date : Int) (keywords : List String) :
    EventStore :=
  let row : StoredEvent :=
    { id := s.nextId, name := name, date := date,
      keywords := String.intercalate "," keywords }
  { events := s.events ++ [row], nextId := s.nextId + 1 }

/-- Embedding of `update_events` (events.py lines 52-66): first purge events older than 30
days, then insert each newly fetched event.  The fetched list
(`fetch_upcoming_events()`, network I/O) is the parameter `new`. -/
def update_events (today : Int) (new : List NewEvent) (s : EventStore) : EventStore :=
  let s1 := clear_old_data today 30 s
  new.foldl (fun st ev => add_event st ev.name ev.date ev.keywords) s1

/-! ### Publisher (`publisher.py`) -/

/-- Escape of one character.  Modelled from the spec: `utils.escape_html`
renders user text "markup-escaped so target-platform formatting directives in
user text cannot break rendering": the markup metacharacters are replaced by
entities. -/
def escChar (c : Char) : List Char :=
  if c = '&' then "&amp;".data
  else if c = '<' then "&lt;".data
  else if c = '>' then "&gt;".data
  else [c]

/-- Character-list worker of `escape_html`. -/
def escListAux (l : List Char) : List Char := l.foldr (fun c acc => escChar c ++ acc) []

/-- Modelled from the spec: `utils.escape_html` — markup-escaping of user
text. -/
def escape_html (s : String) : String := ⟨escListAux s.data⟩

/-- No active-markup metacharacter occurs in `s`: every escaped string
satisfies this, so escaped user text cannot open or close a tag. -/
def noMarkup (s : String) : Bool := s.data.all (fun c => !(c == '<') && !(c == '>'))

/-- Embedding of `format_message` (publisher.py lines 69-82): bold escaped title, blank
line, escaped summary. -/
def format_message (a : Article) : String :=
  "<b>" ++ escape_html a.title ++ "</b>\n\n" ++ escape_html a.summary

/-- Moscow offset in seconds.  Modelled from the spec: `utils.to_moscow_time`
converts a timestamp to "a fixed target timezone". -/
def moscowOffset : Int := 3 * 3600

/-- Modelled from the spec: `utils.to_moscow_time`. -/
def to_moscow_time (t : Int) : Int := t + moscowOffset

/-- A PublishedRecord row: article identifier, title, publication timestamp. -/
structure PublishedRow where
  id : String
  title : String
  ts : Int
deriving DecidableEq

/-- A PostStats row: message identifier and post timestamp. -/
structure StatsRow where
  message_id : Nat
  ts : Int
deriving DecidableEq

/-- The persistent state touched by `publish_to_telegram`. -/
structure PubState where
  published : List PublishedRow
  stats : List StatsRow
deriving DecidableEq

/-- Outcome of the `requests.head` availability probe on the image URL:
a status code, or a `RequestException`. -/
inductive HeadResult where
  | status (code : Nat)
  | exn
deriving DecidableEq

/-- The external world seen by one `publish_to_telegram` call: the image
probe's outcome, the outcomes of the two Telegram send calls (`none` means
the call raises), and the wall clock. -/
structure PubEnv where
  head : HeadResult
  sendPhoto : Option Nat
  sendMsg : Option Nat
  now : Int
deriving DecidableEq

/-- Which send call runs and what it returns (publisher.py lines 19-54):
with a truthy `image_url` and a 200 probe, `send_photo`; otherwise
`send_message` (bad status, probe exception, or no image). -/
def send_result (env : PubEnv) (a : Article) : Option Nat :=
  if truthyOpt a.image_url then
    match env.head with
    | HeadResult.status code => if code = 200 then env.sendPhoto else env.sendMsg
    | HeadResult.exn => env.sendMsg
  else env.sendMsg

/-- Embedding of `publish_to_telegram` (publisher.py lines 15-66): on a successful send the
post stats row and the PublishedRecord row are appended (in that order in the
source) and the message id is returned; any raised exception is caught and
`None` is returned.  A failed send raises before either store write, so the
state is unchanged.  The store writes themselves (`log_post_stats`,
`add_published_article`, absent `database.py`) are modelled from the spec as
appends of single rows. -/
def publish_to_telegram (env : PubEnv) (a : Article) (st : PubState) :
    Option Nat × PubState :=
  match send_result env a with
  | none => (none, st)
  | some mid =>
    let t := to_moscow_time env.now
    (some mid,
      { published := st.published ++ [{ id := a.id, title := a.title, ts := t }],
        stats := st.stats ++ [{ message_id := mid, ts := t }] })

/-! ### Helper lemmas -/

/-- The accumulator form of the `get_relevant_events` loop is a
filter-then-map over the store list. -/
theorem get_relevant_events_foldl (text : String) (l : List StoredEvent) (acc : List RelEvent) :
    l.foldl (fun acc ev => if event_matches text ev then acc ++ [mkRelEvent ev] else acc) acc =
      acc ++ (l.filter (event_matches text)).map mkRelEvent := by
  induction l generalizing acc with
  | nil => simp
  | cons ev t ih =>
    simp only [List.foldl_cons, List.filter_cons]
    cases h : event_matches text ev
    · simp only [h, Bool.false_eq_true, if_false, ih]
    · simp only [h, if_true, ih, List.map_cons, List.append_assoc, List.singleton_append]

/-- `get_relevant_events` is exactly filter-then-map. -/
theorem get_relevant_events_eq (text : String) (l : List StoredEvent) :
    get_relevant_events text l = (l.filter (event_matches text)).map mkRelEvent := by
  simpa using get_relevant_events_foldl text l []

/-- Inserting events never resurrects a row whose id is below the store's
next fresh id: every inserted row gets an id at least as large. -/
theorem fold_add_event_not_mem (new : List NewEvent) (st : EventStore) (ev : StoredEvent)
    (hmem : ev ∉ st.events) (hid : ev.id < st.nextId) :
    ev ∉ (new.foldl (fun st n => add_event st n.name n.date n.keywords) st).events := by
  induction new generalizing st with
  | nil => simpa using hmem
  | cons n t ih =>
    simp only [List.foldl_cons]
    apply ih
    · simp only [add_event, List.mem_append, List.mem_singleton]
      rintro (h | h)
      · exact hmem h
      · have : ev.id = st.nextId := by rw [h]
        omega
    · simp only [add_event]
      omega

/-- Every character produced by escaping a single character is inert. -/
theorem escChar_no_markup (c : Char) :
    (escChar c).all (fun d => !(d == '<') && !(d == '>')) = true := by
  unfold escChar
  split
  · decide
  · split
    · decide
    · split
      · decide
      · rename_i h1 h2 h3
        simp [h2, h3]

/-- Escaped text contains no active-markup metacharacter. -/
theorem escListAux_no_markup (l : List Char) :
    (escListAux l).all (fun d => !(d == '<') && !(d == '>')) = true := by
  induction l with
  | nil => decide
  | cons c t ih =>
    have hsplit : escListAux (c :: t) = escChar c ++ escListAux t := rfl
    rw [hsplit, List.all_append, escChar_no_markup c, ih]
    rfl

/-! ### Claims -/

/-- C2: a raw feed entry whose derived publication timestamp is more than 7
days old is rejected with reason `stale` (and never admitted as an article);
an entry at most 7 days old is never rejected for staleness. -/
theorem C2_stale_rejection (now : Int) (feed : String) (e : Entry) :
    (entry_wellformed e = true → now - pub_date_of now e > sevenDays →
      parse_entry_r now feed e = Except.error RejectReason.stale) ∧
    (now - pub_date_of now e ≤ sevenDays →
      parse_entry_r now feed e ≠ Except.error RejectReason.stale) ∧
    (∀ a : Article, now - pub_date_of now e > sevenDays →
      parse_entry_r now feed e ≠ Except.ok a) := by
  refine ⟨?_, ?_, ?_⟩
  · intro hw hst
    cases hl : e.link with
    | none => simp [entry_wellformed, hl] at hw
    | some lnk =>
      cases ht : e.title with
      | none => simp [entry_wellformed, ht] at hw
      | some ttl =>
        simp only [parse_entry_r, hl, ht]
        rw [if_pos hst]
  · intro hle hcon
    cases hl : e.link with
    | none => simp [parse_entry_r, hl] at hcon
    | some lnk =>
      cases ht : e.title with
      | none => simp [parse_entry_r, hl, ht] at hcon
      | some ttl =>
        simp only [parse_entry_r, hl, ht] at hcon
        rw [if_neg (by omega)] at hcon
        simp at hcon
  · intro a hst hcon
    cases hl : e.link with
    | none => simp [parse_entry_r, hl] at hcon
    | some lnk =>
      cases ht : e.title with
      | none => simp [parse_entry_r, hl, ht] at hcon
      | some ttl =>
        simp only [parse_entry_r, hl, ht] at hcon
        rw [if_pos hst] at hcon
        simp at hcon

/-- C2 witness: a well-formed entry published 10 days before `now` is
rejected `stale`, and the same entry seen when it is fresh is not. -/
theorem C2_witness :
    parse_entry_r (10 * 86400) "f"
        ⟨none, some "T", some "L", none, some 0, none, [], [], []⟩ =
      Except.error RejectReason.stale ∧
    parse_entry_r 100 "f"
        ⟨none, some "T", some "L", none, some 0, none, [], [], []⟩ ≠
      Except.error RejectReason.stale ∧
    parse_entry_r (10 * 86400) "f"
        ⟨none, some "T", some "L", none, some 0, none, [], [], []⟩ ≠
      Except.ok ⟨"L", "T", "", "L", 0, "f", none⟩ :=
  ⟨(C2_stale_rejection (10 * 86400) "f" _).1 (by decide) (by decide),
   (C2_stale_rejection 100 "f" _).2.1 (by decide),
   (C2_stale_rejection (10 * 86400) "f" _).2.2 _ (by decide)⟩

/-- C3: the Relevance Matcher returns exactly the events one of whose
keywords, lowercased, occurs as a substring of the lowercased article text,
in store order (a filter of the input list, mapped to result dicts): no
ranking, scoring or reordering. -/
theorem C3_relevance_matcher (text : String) (events : List StoredEvent) :
    get_relevant_events text events =
      (events.filter (fun ev =>
        (splitCommaStr ev.keywords).any
          (fun k => isSubstrList (lowerStr k).data (lowerStr text).data))).map mkRelEvent := by
  rw [get_relevant_events_eq]
  rfl

/-- C4 counterexample: the claim "the Matcher applied to the empty article
text returns an empty list for every non-empty list of events" fails on an
event whose stored keyword string is empty: `''.split(',')` is `['']` and the
empty keyword is a substring of the empty text, so the event is returned. -/
theorem C4_counterexample :
    get_relevant_events "" [⟨1, "E", 0, ""⟩] = [⟨1, "E", 0, [""]⟩] ∧
    ([⟨1, "E", 0, [""]⟩] : List RelEvent) ≠ [] := by decide

/-- C4 (amended): for events all of whose stored keywords are non-empty, the
Matcher applied to the empty article text returns the empty list; applied to
an empty event list it returns the empty list for any text; neither case is
an error. -/
theorem C4_empty_inputs_amended (events : List StoredEvent)
    (h : ∀ ev ∈ events, ∀ k ∈ splitCommaStr ev.keywords, k ≠ "") :
    get_relevant_events "" events = [] ∧
    ∀ text : String, get_relevant_events text [] = [] := by
  constructor
  · rw [get_relevant_events_eq]
    have hfil : events.filter (event_matches "") = [] := by
      rw [List.filter_eq_nil_iff]
      intro ev hev hmatch
      rcases List.any_eq_true.mp hmatch with ⟨k, hk, hsub⟩
      have hempty : (lowerStr "").data = [] := rfl
      have hk0 : containsSub (lowerStr "") (lowerStr k) =
          ((lowerStr k).data).isEmpty := by
        simp only [containsSub, hempty]
        rfl
      rw [hk0] at hsub
      have : (lowerStr k).data = [] := by
        cases hdata : (lowerStr k).data
        · rfl
        · rw [hdata] at hsub
          simp at hsub
      have hknil : k.data = [] := by
        have hmap := this
        simp only [lowerStr] at hmap
        exact List.map_eq_nil_iff.mp hmap
      exact h ev hev k hk (congrArg String.mk hknil)
    rw [hfil]
    rfl
  · intro text
    rfl

/-- C4 witness: with a one-event store whose keywords are non-empty, the
empty text matches nothing, and an empty event list matches nothing. -/
theorem C4_witness :
    get_relevant_events "" [⟨1, "E", 0, "Tom"⟩] = [] ∧
    ∀ text : String, get_relevant_events text [] = [] :=
  C4_empty_inputs_amended [⟨1, "E", 0, "Tom"⟩] (by decide)

/-- C1 counterexample: a raw feed entry whose derived identifier `"L"` is
already in PublishedRecord but whose publication timestamp is 10 days old is
rejected by the code with reason `stale` (the staleness check in
`parse_entry` runs before `fetch_feed`'s duplicate check), not `duplicate` as
the claim states for every such entry. -/
theorem C1_counterexample :
    ("L" ∈ (["L"] : List String)) ∧
    process_entry ["L"] (10 * 86400) "f"
        ⟨none, some "T", some "L", none, some 0, none, [], [], []⟩ =
      Outcome.rejected RejectReason.stale ∧
    process_entry ["L"] (10 * 86400) "f"
        ⟨none, some "T", some "L", none, some 0, none, [], [], []⟩ ≠
      Outcome.rejected RejectReason.duplicate := by decide

/-- C1 (amended): every raw feed entry that parses successfully (fresh and
well-formed) and whose derived identifier is already in PublishedRecord is
rejected with reason `duplicate`, regardless of its other content; and no
admitted article of any feed fetch carries an identifier already in
PublishedRecord, so an article is never admitted (hence never published) a
second time.  (A stale or malformed entry with a published identifier is
rejected too, but with reason `stale`/`malformed`.) -/
theorem C1_duplicate_amended (pub : List String) (now : Int) (feed : String) (e : Entry)
    (n : Nat) (entries : List Entry) :
    (∀ a : Article, parse_entry_r now feed e = Except.ok a → a.id ∈ pub →
      process_entry pub now feed e = Outcome.rejected RejectReason.duplicate) ∧
    (∀ a : Article, a ∈ fetch_feed pub now feed n entries → a.id ∉ pub) := by
  constructor
  · intro a hok hmem
    have hp : is_article_published pub a.id = true := by
      simp [is_article_published, hmem]
    simp only [process_entry, hok]
    rw [if_pos hp]
  · intro a hmem hcontra
    simp only [fetch_feed, List.mem_filterMap] at hmem
    rcases hmem with ⟨e', _, hf⟩
    cases hp : parse_entry now feed e' with
    | none => rw [hp] at hf; simp at hf
    | some b =>
      rw [hp] at hf
      cases hdup : is_article_published pub b.id <;> simp [hdup] at hf
      subst hf
      simp [is_article_published] at hdup
      exact hdup hcontra

/-- C1 witness: a fresh well-formed entry whose id is published is rejected
`duplicate`; an admitted article's id was not in PublishedRecord. -/
theorem C1_witness :
    process_entry ["L"] 100 "f"
        ⟨none, some "T", some "L", none, some 0, none, [], [], []⟩ =
      Outcome.rejected RejectReason.duplicate ∧
    (⟨"L", "T", "", "L", 0, "f", none⟩ : Article).id ∉ (["X"] : List String) :=
  ⟨(C1_duplicate_amended ["L"] 100 "f"
      ⟨none, some "T", some "L", none, some 0, none, [], [], []⟩ 5 []).1
      ⟨"L", "T", "", "L", 0, "f", none⟩ (by decide) (by decide),
   (C1_duplicate_amended ["X"] 100 "f"
      ⟨none, some "T", some "L", none, some 0, none, [], [], []⟩ 5
      [⟨none, some "T", some "L", none, some 0, none, [], [], []⟩]).2
      ⟨"L", "T", "", "L", 0, "f", none⟩ (by decide)⟩

/-- C5: image extraction tries media-content items typed `image/`, then
thumbnails, then image-typed links, first (truthy) match winning — in
particular an image-typed media item beats any thumbnail on the same entry —
and an entry with no image source still parses to an article (with
`image_url` as extracted, `none` when every source is empty). -/
theorem C5_image_priority (e : Entry) (now : Int) (feed : String) :
    (∀ m : MediaItem, firstImageMedia e.media_content = some m → truthyOpt m.url = true →
      extract_image e = m.url) ∧
    (∀ th : Thumb, ∀ rest : List Thumb, firstImageMedia e.media_content = none →
      e.media_thumbnail = th :: rest → truthyOpt th.url = true → extract_image e = th.url) ∧
    (firstImageMedia e.media_content = none → e.media_thumbnail = [] →
      extract_image e =
        (match firstImageLink e.links with
         | some l => l.href
         | none => none)) ∧
    (entry_wellformed e = true → now - pub_date_of now e ≤ sevenDays →
      ∃ a : Article, parse_entry_r now feed e = Except.ok a ∧
        a.image_url = extract_image e) := by
  refine ⟨?_, ?_, ?_, ?_⟩
  · intro m hm hu
    simp [extract_image, hm, hu]
  · intro th rest hm hth hu
    have h0 : truthyOpt (none : Option String) = false := rfl
    simp only [extract_image, hm, hth, h0, Bool.false_eq_true, if_false, hu, if_true]
  · intro hm hth
    simp only [extract_image, hm, hth]
    cases hfl : firstImageLink e.links <;> simp [hfl, truthyOpt]
  · intro hw hfr
    cases hl : e.link with
    | none => simp [entry_wellformed, hl] at hw
    | some lnk =>
      cases ht : e.title with
      | none => simp [entry_wellformed, ht] at hw
      | some ttl =>
        simp only [parse_entry_r, hl, ht]
        rw [if_neg (by omega)]
        exact ⟨_, rfl, rfl⟩

/-- C5 witness: a jpeg media item wins over a present thumbnail; with no
media item the thumbnail is used; with neither, the first image-typed link;
and an imageless fresh entry still parses to an article. -/
theorem C5_witness :
    extract_image ⟨none, none, none, none, none, none,
        [⟨some "image/jpeg", some "m.jpg"⟩], [⟨some "t.jpg"⟩], []⟩ = some "m.jpg" ∧
    extract_image ⟨none, none, none, none, none, none, [], [⟨some "t.jpg"⟩], []⟩ =
      some "t.jpg" ∧
    extract_image ⟨none, none, none, none, none, none, [], [],
        [⟨some "image/png", some "l.png"⟩]⟩ = some "l.png" ∧
    (∃ a : Article,
      parse_entry_r 100 "f" ⟨none, some "T", some "L", none, some 0, none, [], [], []⟩ =
        Except.ok a ∧
      a.image_url =
        extract_image ⟨none, some "T", some "L", none, some 0, none, [], [], []⟩) :=
  ⟨(C5_image_priority _ 0 "f").1 ⟨some "image/jpeg", some "m.jpg"⟩ (by decide) (by decide),
   (C5_image_priority _ 0 "f").2.1 ⟨some "t.jpg"⟩ [] (by decide) (by decide) (by decide),
   ((C5_image_priority ⟨none, none, none, none, none, none, [], [],
        [⟨some "image/png", some "l.png"⟩]⟩ 0 "f").2.2.1 (by decide) (by decide)).trans
     (by decide),
   (C5_image_priority _ 100 "f").2.2.2 (by decide) (by decide)⟩

/-- C6: an entry with neither `published_parsed` nor `updated_parsed` gets
the current time as its publication timestamp and therefore passes the 7-day
freshness check (it parses to an article whose `pub_date` is `now`). -/
theorem C6_missing_timestamp (now : Int) (feed : String) (e : Entry)
    (h1 : e.published = none) (h2 : e.updated = none) (hw : entry_wellformed e = true) :
    ∃ a : Article, parse_entry_r now feed e = Except.ok a ∧ a.pub_date = now := by
  have hpd : pub_date_of now e = now := by simp [pub_date_of, h1, h2]
  cases hl : e.link with
  | none => simp [entry_wellformed, hl] at hw
  | some lnk =>
    cases ht : e.title with
    | none => simp [entry_wellformed, ht] at hw
    | some ttl =>
      simp only [parse_entry_r, hl, ht, hpd]
      rw [if_neg (by simp only [sevenDays]; omega)]
      exact ⟨_, rfl, rfl⟩

/-- C6 witness: a concrete entry with no timestamps parses at `now = 5` to an
article dated 5. -/
theorem C6_witness :
    ∃ a : Article,
      parse_entry_r 5 "f" ⟨none, some "T", some "L", none, none, none, [], [], []⟩ =
        Except.ok a ∧ a.pub_date = 5 :=
  C6_missing_timestamp 5 "f" _ rfl rfl (by decide)

/-- C7: `update_events` purges events older than 30 days before inserting the
cycle's new events, so an event whose calendar date is 31 or more days old is
gone from the purged store and absent from the store after the whole cycle
(the store invariant being that stored ids are below the next fresh id). -/
theorem C7_purge_before_insert (today : Int) (s : EventStore) (new : List NewEvent)
    (ev : StoredEvent) (hmem : ev ∈ s.events) (hold : today - ev.date ≥ 31)
    (hinv : ∀ x ∈ s.events, x.id < s.nextId) :
    update_events today new s =
      new.foldl (fun st n => add_event st n.name n.date n.keywords)
        (clear_old_data today 30 s) ∧
    ev ∉ (clear_old_data today 30 s).events ∧
    ev ∉ (update_events today new s).events := by
  have hpurged : ev ∉ (clear_old_data today 30 s).events := by
    simp only [clear_old_data, List.mem_filter]
    rintro ⟨_, hkeep⟩
    simp at hkeep
    omega
  refine ⟨rfl, hpurged, ?_⟩
  apply fold_add_event_not_mem
  · exact hpurged
  · exact hinv ev hmem

/-- C7 witness: an event dated day 0 is purged by the cycle run on day 31 and
absent after that cycle's insertion. -/
theorem C7_witness :
    update_events 31 [⟨"n", 31, ["a"]⟩] ⟨[⟨0, "old", 0, "k"⟩], 1⟩ =
      ([⟨"n", 31, ["a"]⟩] : List NewEvent).foldl
        (fun st n => add_event st n.name n.date n.keywords)
        (clear_old_data 31 30 ⟨[⟨0, "old", 0, "k"⟩], 1⟩) ∧
    (⟨0, "old", 0, "k"⟩ : StoredEvent) ∉
      (clear_old_data 31 30 ⟨[⟨0, "old", 0, "k"⟩], 1⟩).events ∧
    (⟨0, "old", 0, "k"⟩ : StoredEvent) ∉
      (update_events 31 [⟨"n", 31, ["a"]⟩] ⟨[⟨0, "old", 0, "k"⟩], 1⟩).events :=
  C7_purge_before_insert 31 ⟨[⟨0, "old", 0, "k"⟩], 1⟩ [⟨"n", 31, ["a"]⟩]
    ⟨0, "old", 0, "k"⟩ (by decide) (by decide) (by decide)

/-- C8: the formatter produces exactly a bold escaped title line, a blank
line, then the escaped summary; escaped text contains no markup
metacharacter, so user text cannot introduce active markup — illustrated on
the spec's scenario with a script tag in the title and a bare ampersand in
the summary.  The embedding is a pure function of the article. -/
theorem C8_formatter (a : Article) :
    format_message a = "<b>" ++ escape_html a.title ++ "</b>\n\n" ++ escape_html a.summary ∧
    noMarkup (escape_html a.title) = true ∧
    noMarkup (escape_html a.summary) = true ∧
    format_message ⟨"i", "<script>x</script>Breaking", "A & B", "l", 0, "s", none⟩ =
      "<b>&lt;script&gt;x&lt;/script&gt;Breaking</b>\n\nA &amp; B" := by
  refine ⟨rfl, ?_, ?_, by decide⟩
  · exact escListAux_no_markup a.title.data
  · exact escListAux_no_markup a.summary.data

/-- C10: a message identifier is returned exactly when the send succeeded,
and then the PublishedRecord row and the post-stats row are appended; when
the send fails the call returns `None` and neither row is created, so the
article stays unpublished for the deduplication filter. -/
theorem C10_publish (env : PubEnv) (a : Article) (st : PubState) :
    (∀ mid : Nat, (publish_to_telegram env a st).1 = some mid →
      send_result env a = some mid ∧
      (publish_to_telegram env a st).2.published =
        st.published ++ [⟨a.id, a.title, to_moscow_time env.now⟩] ∧
      (publish_to_telegram env a st).2.stats =
        st.stats ++ [⟨mid, to_moscow_time env.now⟩]) ∧
    ((publish_to_telegram env a st).1 = none → (publish_to_telegram env a st).2 = st) ∧
    (send_result env a = none →
      (publish_to_telegram env a st).1 = none ∧
      (publish_to_telegram env a st).2 = st) := by
  cases hs : send_result env a with
  | none => simp [publish_to_telegram, hs]
  | some mid =>
    refine ⟨?_, ?_, ?_⟩
    · intro mid' hmid
      simp [publish_to_telegram, hs] at hmid
      subst hmid
      simp [publish_to_telegram, hs]
    · intro hnone
      simp [publish_to_telegram, hs] at hnone
    · intro hcon
      simp at hcon

/-- C10 witness: a successful no-image send records both rows and returns the
message id; a failing send returns `None` and leaves the state unchanged. -/
theorem C10_witness :
    (send_result ⟨HeadResult.status 200, some 7, some 8, 0⟩
        ⟨"i", "t", "s", "l", 0, "src", none⟩ = some 8 ∧
      (publish_to_telegram ⟨HeadResult.status 200, some 7, some 8, 0⟩
          ⟨"i", "t", "s", "l", 0, "src", none⟩ ⟨[], []⟩).2.published =
        [] ++ [⟨"i", "t", to_moscow_time 0⟩] ∧
      (publish_to_telegram ⟨HeadResult.status 200, some 7, some 8, 0⟩
          ⟨"i", "t", "s", "l", 0, "src", none⟩ ⟨[], []⟩).2.stats =
        [] ++ [⟨8, to_moscow_time 0⟩]) ∧
    ((publish_to_telegram ⟨HeadResult.status 200, some 7, none, 0⟩
          ⟨"i", "t", "s", "l", 0, "src", none⟩ ⟨[], []⟩).1 = none ∧
      (publish_to_telegram ⟨HeadResult.status 200, some 7, none, 0⟩
          ⟨"i", "t", "s", "l", 0, "src", none⟩ ⟨[], []⟩).2 = ⟨[], []⟩) :=
  ⟨(C10_publish ⟨HeadResult.status 200, some 7, some 8, 0⟩
      ⟨"i", "t", "s", "l", 0, "src", none⟩ ⟨[], []⟩).1 8 (by decide),
   (C10_publish ⟨HeadResult.status 200, some 7, none, 0⟩
      ⟨"i", "t", "s", "l", 0, "src", none⟩ ⟨[], []⟩).2.2 (by decide)⟩

/-- C9: `fetch_feed` looks only at the first `ARTICLES_PER_FEED` entries of
the feed: its result has at most that many articles, and it is unchanged if
the feed is truncated to that prefix (later entries are never examined). -/
theorem C9_per_feed_cap (pub : List String) (now : Int) (feed : String) (n : Nat)
    (entries : List Entry) :
    (fetch_feed pub now feed n entries).length ≤ n ∧
    fetch_feed pub now feed n entries = fetch_feed pub now feed n (entries.take n) := by
  constructor
  · calc (fetch_feed pub now feed n entries).length
        ≤ (entries.take n).length := List.length_filterMap_le _ _
      _ ≤ n := List.length_take_le _ _
  · unfold fetch_feed
    rw [List.take_take, min_self]

end HotNewsBot
